import Mathlib

/-!
Verification of the evo APE evaluation pipeline (`evo/main_ape.py`).

This file gives a shallow embedding of the APE (absolute pose error)
evaluation pipeline of the evo repository and proves properties of it.

The source file under verification is `src/evo/main_ape.py` (functions
`ape` and `run`).  The modules it calls (`evo.core.metrics`,
`evo.core.sync`, `evo.core.trajectory`, `evo.core.result`,
`evo.core.lie_algebra`) are not part of the sources; the definitions
standing for them are modelled from the specification and carry a doc
comment saying so.

Numeric conventions: machine floats are modelled as exact numbers —
rational numbers `ℚ` for all data that the pipeline manipulates
algebraically (timestamps, positions, rotation-matrix entries) and real
numbers `ℝ` for derived quantities that involve square roots
(per-pose errors, cumulative distances, statistics).
-/

set_option maxHeartbeats 1000000

namespace Evo

/-- A 3-vector with exact rational entries (models a numpy 3-vector). -/
structure Vec3 where
  x : ℚ
  y : ℚ
  z : ℚ
  deriving DecidableEq

instance : Sub Vec3 := ⟨fun a b => ⟨a.x - b.x, a.y - b.y, a.z - b.z⟩⟩

@[simp] lemma Vec3.sub_def (a b : Vec3) :
    a - b = ⟨a.x - b.x, a.y - b.y, a.z - b.z⟩ := rfl

/-- Dot product of two 3-vectors. -/
def Vec3.dot (a b : Vec3) : ℚ := a.x * b.x + a.y * b.y + a.z * b.z

/-- Squared Euclidean norm of a 3-vector. -/
def Vec3.normSq (v : Vec3) : ℚ := v.dot v

/-- A 3×3 matrix with rational entries, stored by rows. -/
structure Mat3 where
  r0 : Vec3
  r1 : Vec3
  r2 : Vec3
  deriving DecidableEq

/-- The identity 3×3 matrix. -/
def Mat3.one : Mat3 := ⟨⟨1, 0, 0⟩, ⟨0, 1, 0⟩, ⟨0, 0, 1⟩⟩

/-- Matrix transpose. -/
def Mat3.transpose (m : Mat3) : Mat3 :=
  ⟨⟨m.r0.x, m.r1.x, m.r2.x⟩, ⟨m.r0.y, m.r1.y, m.r2.y⟩, ⟨m.r0.z, m.r1.z, m.r2.z⟩⟩

/-- Matrix-vector product. -/
def Mat3.mulVec (m : Mat3) (v : Vec3) : Vec3 := ⟨m.r0.dot v, m.r1.dot v, m.r2.dot v⟩

/-- Matrix-matrix product. -/
def Mat3.mul (a b : Mat3) : Mat3 :=
  let bt := b.transpose
  ⟨⟨a.r0.dot bt.r0, a.r0.dot bt.r1, a.r0.dot bt.r2⟩,
   ⟨a.r1.dot bt.r0, a.r1.dot bt.r1, a.r1.dot bt.r2⟩,
   ⟨a.r2.dot bt.r0, a.r2.dot bt.r1, a.r2.dot bt.r2⟩⟩

instance : Sub Mat3 := ⟨fun a b => ⟨a.r0 - b.r0, a.r1 - b.r1, a.r2 - b.r2⟩⟩

/-- Trace of a 3×3 matrix. -/
def Mat3.trace (m : Mat3) : ℚ := m.r0.x + m.r1.y + m.r2.z

/-- Squared Frobenius norm of a 3×3 matrix. -/
def Mat3.frobSq (m : Mat3) : ℚ := m.r0.normSq + m.r1.normSq + m.r2.normSq

/-- A rigid 3D pose: rotation matrix and translation vector
(models one pose of a `PosePath3D`). -/
structure Pose where
  rot : Mat3
  pos : Vec3
  deriving DecidableEq

/-- A timestamped pose trajectory (models `PoseTrajectory3D`):
poses plus a parallel list of timestamps. -/
structure PoseTraj where
  poses : List Pose
  timestamps : List ℚ
  deriving DecidableEq

/-- A trajectory argument of `ape`: either an untimestamped `PosePath3D`
or a timestamped `PoseTrajectory3D`. -/
inductive Traj where
  | path (poses : List Pose)
  | timed (t : PoseTraj)
  deriving DecidableEq

/-- The poses of a trajectory of either kind. -/
def Traj.poses : Traj → List Pose
  | .path ps => ps
  | .timed t => t.poses

/-- Whether the trajectory carries timestamps
(models `isinstance(·, PoseTrajectory3D)`). -/
def Traj.isTimed : Traj → Bool
  | .path _ => false
  | .timed _ => true

/-- The timestamps of a trajectory (empty for an untimestamped path). -/
def Traj.stamps : Traj → List ℚ
  | .path _ => []
  | .timed t => t.timestamps

/-- Well-formedness of a trajectory: the timestamp list, when present,
is parallel to the pose list. -/
def Traj.wf : Traj → Bool
  | .path _ => true
  | .timed t => t.timestamps.length == t.poses.length

@[simp] lemma Traj.poses_path (ps : List Pose) : (Traj.path ps).poses = ps := rfl

@[simp] lemma Traj.poses_timed (t : PoseTraj) :
    (Traj.timed t).poses = t.poses := rfl

@[simp] lemma Traj.isTimed_path (ps : List Pose) :
    (Traj.path ps).isTimed = false := rfl

@[simp] lemma Traj.isTimed_timed (t : PoseTraj) :
    (Traj.timed t).isTimed = true := rfl

@[simp] lemma Traj.stamps_path (ps : List Pose) :
    (Traj.path ps).stamps = [] := rfl

@[simp] lemma Traj.stamps_timed (t : PoseTraj) :
    (Traj.timed t).stamps = t.timestamps := rfl

@[simp] lemma Traj.wf_path (ps : List Pose) : (Traj.path ps).wf = true := rfl

@[simp] lemma Traj.wf_timed (t : PoseTraj) :
    (Traj.timed t).wf = (t.timestamps.length == t.poses.length) := rfl

/-- The pose relation choices of the APE metric
(the `pose_relation` choices in `main_ape.py`). -/
inductive PoseRelation where
  | full
  | trans_part
  | rot_part
  | angle_deg
  | angle_rad
  | point_distance
  deriving DecidableEq

/-- Modelled from the spec: the `lie_algebra.sim3` matrix built from the
return value of `traj_est.align(...)` / `traj_est.align_origin(...)`
(`evo.core.trajectory`, `evo.core.lie_algebra`, not under `src/`).
The SVD-based numerics are external to the sources, so the applied
transformation is recorded symbolically: the mode of the invocation
together with its parameters. -/
inductive AlignRecord where
  | umeyama (correct_scale only_scale : Bool) (n : Int)
  | origin
  deriving DecidableEq

/-- The alignment decision of `ape` (`main_ape.py`, lines 186–195):
`only_scale = correct_scale and not align`; Umeyama alignment when
`align or correct_scale`, otherwise origin alignment when
`align_origin`, otherwise none. -/
def alignmentDecision (align correct_scale align_origin : Bool) (n : Int) :
    Option AlignRecord :=
  let only_scale := correct_scale && !align
  if align || correct_scale then
    some (.umeyama correct_scale only_scale n)
  else if align_origin then
    some .origin
  else
    none

/-- The estimate trajectory as held by `ape` after the alignment step.
In the source, `traj_est.align` / `align_origin` transform the estimate
trajectory; the application of the (externally computed) transform is a
parameter `alignApply`. -/
def apeAlignedEst (alignApply : Traj → AlignRecord → Traj) (traj_est : Traj)
    (align correct_scale align_origin : Bool) (n : Int) : Traj :=
  match alignmentDecision align correct_scale align_origin n with
  | some rec => alignApply traj_est rec
  | none => traj_est

/-- The title string built by `ape` (`main_ape.py`, lines 203–215):
the metric description followed by the alignment-mode line and,
for Umeyama alignment with `n_to_align ≠ -1`, the aligned-poses suffix. -/
def buildTitle (base : String) (align correct_scale align_origin : Bool)
    (n : Int) : String :=
  let only_scale := correct_scale && !align
  let title :=
    if align && !correct_scale then base ++ "\n(with SE(3) Umeyama alignment)"
    else if align && correct_scale then base ++ "\n(with Sim(3) Umeyama alignment)"
    else if only_scale then base ++ "\n(scale corrected)"
    else if align_origin then base ++ "\n(with origin alignment)"
    else base ++ "\n(not aligned)"
  if (align || correct_scale) && n != -1 then
    title ++ " (aligned poses: " ++ toString n ++ ")"
  else
    title

/-- The rotation component of the relative pose
`E_i = reference_i⁻¹ · estimate_i`. -/
def relRot (a b : Pose) : Mat3 := a.rot.transpose.mul b.rot

/-- The translation component of the relative pose
`E_i = reference_i⁻¹ · estimate_i`. -/
def relTrans (a b : Pose) : Vec3 := a.rot.transpose.mulVec (b.pos - a.pos)

/-- The clamped rotation-angle argument `clamp((trace(R) - 1) / 2, -1, 1)`. -/
def angleCosArg (a b : Pose) : ℚ := max (-1) (min 1 (((relRot a b).trace - 1) / 2))

/-- Modelled from the spec: the per-pose APE error of `evo.core.metrics.APE`
(not under `src/`), computed from the relative pose
`E_i = reference_i⁻¹ · estimate_i`:
`trans_part` is the Euclidean norm of the translation component,
`rot_part` the matrix-based magnitude of the rotation component,
`angle_rad`/`angle_deg` the rotation angle via a clamped arccos,
`full` the combined pose-difference magnitude, and
`point_distance` the Euclidean distance of the raw positions. -/
noncomputable def apeError (rel : PoseRelation) (a b : Pose) : ℝ :=
  match rel with
  | .trans_part => Real.sqrt ((relTrans a b).normSq : ℚ)
  | .point_distance => Real.sqrt ((b.pos - a.pos).normSq : ℚ)
  | .rot_part => Real.sqrt ((relRot a b - Mat3.one).frobSq : ℚ)
  | .full =>
      Real.sqrt (((relRot a b - Mat3.one).frobSq + (relTrans a b).normSq : ℚ))
  | .angle_rad => Real.arccos (angleCosArg a b : ℚ)
  | .angle_deg => 180 / Real.pi * Real.arccos (angleCosArg a b : ℚ)

/-- Sum of squared errors (spec §4.4). -/
noncomputable def sse (l : List ℝ) : ℝ := (l.map (· ^ 2)).sum

/-- Arithmetic mean of an error array (spec §4.4). -/
noncomputable def meanE (l : List ℝ) : ℝ := l.sum / l.length

/-- Root-mean-square error `sqrt(mean(error²))` (spec §4.4). -/
noncomputable def rmse (l : List ℝ) : ℝ := Real.sqrt (sse l / l.length)

/-- Standard deviation of an error array (spec §4.4). -/
noncomputable def stdE (l : List ℝ) : ℝ :=
  Real.sqrt ((l.map (fun e => (e - meanE l) ^ 2)).sum / l.length)

/-- Minimum of an error array (spec §4.4). -/
noncomputable def minE (l : List ℝ) : ℝ := l.foldr (fun a b => min a b) 0

/-- Maximum of an error array (spec §4.4). -/
noncomputable def maxE (l : List ℝ) : ℝ := l.foldr (fun a b => max a b) 0

/-- Modelled from the spec: the statistics mapping stored by
`evo.core.metrics` / the Result Aggregator (not under `src/`):
rmse, mean, std, min, max and sse of the per-pose error array
(the median, also listed in spec §4.4, is referenced by no claim
and is omitted). -/
noncomputable def statsOf (l : List ℝ) : List (String × ℝ) :=
  [("rmse", rmse l), ("mean", meanE l), ("std", stdE l), ("min", minE l),
   ("max", maxE l), ("sse", sse l)]

/-- The squared Euclidean lengths of the translation deltas between
consecutive poses. -/
def posDeltasSq (ps : List Pose) : List ℚ :=
  List.zipWith (fun a b => (b.pos - a.pos).normSq) ps ps.tail

/-- Modelled from the spec: the `distances` attribute of `PosePath3D`
(`evo.core.trajectory`, not under `src/`): the cumulative sum of the
Euclidean translation deltas between consecutive poses, starting at 0. -/
noncomputable def distances (ps : List Pose) : List ℝ :=
  match ps with
  | [] => []
  | _ :: _ => List.scanl (fun acc q => acc + Real.sqrt (q : ℚ)) 0 (posDeltasSq ps)

/-- A value stored in a Result's named numeric-array mapping: either a
per-pose array of scalars or the (symbolically recorded) alignment
transformation matrix. -/
inductive NpValue where
  | arr (a : List ℝ)
  | mat (t : AlignRecord)

/-- Update of a string-keyed mapping represented as an association list:
replace the value of an existing key, or append a new entry (models
Python dict assignment, the storage of `evo.core.result.Result`). -/
def insertKV {α : Type} : List (String × α) → String → α → List (String × α)
  | [], k, v => [(k, v)]
  | p :: rest, k, v =>
      if p.1 == k then (k, v) :: rest else p :: insertKV rest k v

/-- Modelled from the spec: the `Result` record of `evo.core.result`
(not under `src/`): metadata strings, scalar statistics, named numeric
arrays and attached trajectories, each a string-keyed mapping. -/
structure Result where
  info : List (String × String)
  stats : List (String × ℝ)
  np_arrays : List (String × NpValue)
  trajectories : List (String × Traj)

/-- Modelled from the spec: the title prefix `str(ape_metric)` describing
the pose relation (`evo.core.metrics`, not under `src/`). -/
def apeBaseTitle (rel : PoseRelation) : String :=
  "APE w.r.t. " ++
    match rel with
    | .full => "full transformation (unit-less)"
    | .trans_part => "translation part (m)"
    | .rot_part => "rotation part (unit-less)"
    | .angle_deg => "rotation angle in degrees (deg)"
    | .angle_rad => "rotation angle in radians (rad)"
    | .point_distance => "point distance (m)"

/-- The Result built by `ape` (`main_ape.py`, lines 186–239):
alignment decision, per-pose APE errors of the reference against the
(possibly aligned) estimate, statistics, title, attached trajectories,
the four auxiliary per-pose arrays when the estimate is timestamped,
and the alignment transformation when one was applied.  The
application of the externally computed alignment transform to the
estimate trajectory is the parameter `alignApply`. -/
noncomputable def apeResult (alignApply : Traj → AlignRecord → Traj)
    (traj_ref traj_est : Traj) (rel : PoseRelation)
    (align correct_scale : Bool) (n_to_align : Int) (align_origin : Bool)
    (ref_name est_name : String) : Result :=
  let alignment_transformation :=
    alignmentDecision align correct_scale align_origin n_to_align
  let est := apeAlignedEst alignApply traj_est align correct_scale
    align_origin n_to_align
  let errors := List.zipWith (apeError rel) traj_ref.poses est.poses
  let title := buildTitle (apeBaseTitle rel) align correct_scale align_origin
    n_to_align
  let aux : List (String × NpValue) :=
    match est with
    | .timed t =>
        [("seconds_from_start",
          .arr (t.timestamps.map fun x => ((x - t.timestamps.headI : ℚ) : ℝ))),
         ("timestamps", .arr (t.timestamps.map fun x => ((x : ℚ) : ℝ))),
         ("distances_from_start",
          .arr ((distances traj_ref.poses).map
            fun d => d - (distances traj_ref.poses).headI)),
         ("distances", .arr (distances t.poses))]
    | .path _ => []
  let alignArr : List (String × NpValue) :=
    match alignment_transformation with
    | some rec => [("alignment_transformation_sim3", .mat rec)]
    | none => []
  { info := [("title", title), ("ref_name", ref_name), ("est_name", est_name)],
    stats := statsOf errors,
    np_arrays := [("error_array", .arr errors)] ++ aux ++ alignArr,
    trajectories := insertKV (insertKV [] ref_name traj_ref) est_name est }

/-- The `ape` function of `main_ape.py`: the equal-length validation of
`metrics.APE.process_data` (modelled from the spec, `evo.core.metrics`
not being under `src/`) raises a MetricError on trajectories of
different lengths; otherwise the Result of `apeResult` is returned. -/
noncomputable def ape (alignApply : Traj → AlignRecord → Traj)
    (traj_ref traj_est : Traj) (rel : PoseRelation)
    (align correct_scale : Bool) (n_to_align : Int) (align_origin : Bool)
    (ref_name est_name : String) : Except String Result :=
  if traj_ref.poses.length =
      (apeAlignedEst alignApply traj_est align correct_scale align_origin
        n_to_align).poses.length then
    .ok (apeResult alignApply traj_ref traj_est rel align correct_scale
      n_to_align align_origin ref_name est_name)
  else
    .error "MetricError: compared trajectories do not have the same length"

/-- Preference between a candidate match (index `i` at distance `d`) and
the best match found later in the list: the candidate wins when its
distance is at most the other one's (earliest index wins ties). -/
def better (cur : Option (Nat × ℚ)) (i : Nat) (d : ℚ) : Option (Nat × ℚ) :=
  match cur with
  | none => some (i, d)
  | some (j, dj) => if d ≤ dj then some (i, d) else some (j, dj)

/-- The best unconsumed match for the timestamp `ta` among an indexed list
of candidate timestamps: the entry minimizing `|ta - (tb + offset)|`,
ties broken by the earliest index.  Returns the index and its distance. -/
def bestMatch (consumed : List Nat) (ta off : ℚ) :
    List (Nat × ℚ) → Option (Nat × ℚ)
  | [] => none
  | (i, tb) :: rest =>
      if i ∈ consumed then bestMatch consumed ta off rest
      else better (bestMatch consumed ta off rest) i |ta - (tb + off)|

/-- The greedy one-to-one assignment of spec §4.2: scan the indexed
timestamps of the first trajectory in order; for each, take the best
unconsumed match in the second trajectory and accept it when its
distance is at most `max_diff`. -/
def assocGo (tb : List (Nat × ℚ)) (max_diff off : ℚ) :
    List (Nat × ℚ) → List Nat → List (Nat × Nat)
  | [], _ => []
  | (ia, ta) :: rest, consumed =>
      match bestMatch consumed ta off tb with
      | some (ib, d) =>
          if d ≤ max_diff then (ia, ib) :: assocGo tb max_diff off rest (ib :: consumed)
          else assocGo tb max_diff off rest consumed
      | none => assocGo tb max_diff off rest consumed

/-- The matched index pairs of the Synchronizer for two timestamp lists. -/
def assocPairs (ta tb : List ℚ) (max_diff off : ℚ) : List (Nat × Nat) :=
  assocGo tb.enum max_diff off ta.enum []

/-- The restriction of a trajectory to a list of indices. -/
def selectIdx (tr : PoseTraj) (idx : List Nat) : PoseTraj :=
  ⟨idx.filterMap (tr.poses[·]?), idx.filterMap (tr.timestamps[·]?)⟩

/-- Modelled from the spec: `sync.associate_trajectories`
(`evo.core.sync`, not under `src/`): greedy one-to-one matching of the
two trajectories' timestamps under the tolerance `max_diff` with the
constant `offset` added to the second trajectory's timestamps; the two
reduced trajectories are returned, and an AssociationError is raised
when no pair matches. -/
def associate (A B : PoseTraj) (max_diff off : ℚ) :
    Except String (PoseTraj × PoseTraj) :=
  let pairs := assocPairs A.timestamps B.timestamps max_diff off
  if pairs.isEmpty then
    .error "AssociationError: found no matching timestamps"
  else
    .ok (selectIdx A (pairs.map (·.1)), selectIdx B (pairs.map (·.2)))

/-- Python truthiness of an optional float argument: `None` and `0.0`
are falsy (models the guard `if args.t_start or args.t_end:`). -/
def pyTruthy : Option ℚ → Bool
  | none => false
  | some q => q != 0

/-- Modelled from the spec: `PoseTrajectory3D.reduce_to_time_range`
(`evo.core.trajectory`, not under `src/`): restriction to the closed
time interval given by the bounds, a missing bound being unbounded. -/
def reduceToTimeRange (tr : PoseTraj) (t_start t_end : Option ℚ) : PoseTraj :=
  let keep : ℚ → Bool := fun t =>
    (match t_start with | none => true | some a => decide (a ≤ t)) &&
    (match t_end with | none => true | some b => decide (t ≤ b))
  let pairs := (tr.timestamps.zip tr.poses).filter (fun p => keep p.1)
  ⟨pairs.map (·.2), pairs.map (·.1)⟩

/-- The time-restriction step of `run` (`main_ape.py`, lines 261–266):
the reference trajectory is reduced to the time range only when the
guard `args.t_start or args.t_end` is truthy. -/
def runRestrictStep (traj_ref : PoseTraj) (t_start t_end : Option ℚ) :
    PoseTraj :=
  if pyTruthy t_start || pyTruthy t_end then
    reduceToTimeRange traj_ref t_start t_end
  else
    traj_ref

/-- A store of trajectory objects: in-memory instances addressed by
identifiers, with a fresh-identifier counter.  It makes object identity
and (absence of) in-place mutation observable in the embedding. -/
structure Store where
  objs : List (Nat × PoseTraj)
  next : Nat
  deriving DecidableEq

/-- The trajectory instance held under an identifier. -/
def Store.get (s : Store) (i : Nat) : Option PoseTraj := s.objs.lookup i

/-- Allocation of a new trajectory instance under a fresh identifier. -/
def Store.alloc (s : Store) (v : PoseTraj) : Nat × Store :=
  (s.next, ⟨(s.next, v) :: s.objs, s.next + 1⟩)

/-- Store well-formedness: every allocated identifier is below the
fresh-identifier counter. -/
def Store.WFS (s : Store) : Prop := ∀ p ∈ s.objs, p.1 < s.next

instance (s : Store) : Decidable s.WFS :=
  inferInstanceAs (Decidable (∀ p ∈ s.objs, p.1 < s.next))

/-- Modelled from the spec: the Synchronizer acting on stored trajectory
instances (`evo.core.sync`, not under `src/`) — per the spec's ownership
discipline it does not mutate its inputs and returns the two associated
trajectories as new instances. -/
def associateS (s : Store) (ra rb : Nat) (max_diff off : ℚ) :
    Except String ((Nat × Nat) × Store) :=
  match s.get ra, s.get rb with
  | some A, some B =>
      match associate A B max_diff off with
      | .ok (A2, B2) =>
          let p1 := s.alloc A2
          let p2 := p1.2.alloc B2
          .ok ((p1.1, p2.1), p2.2)
      | .error e => .error e
  | _, _ => .error "missing trajectory instance"

/-- Modelled from the spec: the Alignment Engine acting on a stored
trajectory instance (`evo.core.trajectory`, not under `src/`) — per the
spec's ownership discipline it does not mutate its input and returns
the aligned trajectory as a new instance.  The numeric application of
the transform is the parameter `app`. -/
def alignS (s : Store) (re : Nat) (rec : AlignRecord)
    (app : PoseTraj → AlignRecord → PoseTraj) : Except String (Nat × Store) :=
  match s.get re with
  | some E => let p := s.alloc (app E rec); .ok (p.1, p.2)
  | none => .error "missing trajectory instance"

/-! ## Concrete inputs used by the theorems -/

/-- A pose with identity rotation at position `(q, 0, 0)`. -/
def pAt (q : ℚ) : Pose := ⟨Mat3.one, ⟨q, 0, 0⟩⟩

/-- Identity alignment application (used where no alignment is selected). -/
def idApply : Traj → AlignRecord → Traj := fun tr _ => tr

/-- Scenario A reference: identity rotations at x = 0, 1, 2, stamps 0, 1, 2. -/
def scARef : Traj := .timed ⟨[pAt 0, pAt 1, pAt 2], [0, 1, 2]⟩

/-- Scenario A estimate: the reference shifted by `(0.1, 0, 0)`. -/
def scAEst : Traj := .timed ⟨[pAt (1/10), pAt (11/10), pAt (21/10)], [0, 1, 2]⟩

/-! ## Claim-side definitions (refinement targets, following the spec) -/

/-- The alignment-mode description of the claim about the title:
SE(3) for align without scale correction, Sim(3) for align with scale
correction, scale-corrected for scale correction without align, origin
alignment for `align_origin` alone, and not-aligned otherwise. -/
def titleModeDescr (a cs ao : Bool) : String :=
  if a && !cs then "(with SE(3) Umeyama alignment)"
  else if a && cs then "(with Sim(3) Umeyama alignment)"
  else if !a && cs then "(scale corrected)"
  else if !a && !cs && ao then "(with origin alignment)"
  else "(not aligned)"

/-- The aligned-poses suffix of the claim about the title: present
exactly when Umeyama alignment was requested and `n_to_align ≠ -1`. -/
def titleSuffix (a cs : Bool) (n : Int) : String :=
  if (a || cs) && n != -1 then " (aligned poses: " ++ toString n ++ ")" else ""

/-! ## Helper lemmas -/

lemma buildTitle_eq (base : String) (a cs ao : Bool) (n : Int) :
    buildTitle base a cs ao n =
      base ++ ("\n" ++ (titleModeDescr a cs ao ++ titleSuffix a cs n)) := by
  rcases eq_or_ne n (-1) with hn | hn
  · subst hn
    cases a <;> cases cs <;> cases ao <;>
      simp [buildTitle, titleModeDescr, titleSuffix, String.append_assoc]
  · have hb : (n != -1) = true := bne_iff_ne.mpr hn
    cases a <;> cases cs <;> cases ao <;>
      simp [buildTitle, titleModeDescr, titleSuffix, hb, String.append_assoc] <;>
        rfl

/-! ## Claims -/

/-- C2: for every invocation of `ape`, at most one alignment mode is
applied: Umeyama alignment exactly when `align` or `correct_scale` is
set, in scale-only mode exactly when `correct_scale` is set and `align`
is not; otherwise origin alignment exactly when `align_origin` is set;
otherwise none.  When `align` or `correct_scale` is set, `align_origin`
has no effect on the decision. -/
theorem alignmentDecision_modes (a cs ao : Bool) (n : Int) :
    alignmentDecision a cs ao n =
      (if a || cs then some (.umeyama cs (cs && !a) n)
       else if ao then some .origin else none) ∧
    alignmentDecision a cs ao n = alignmentDecision a cs (ao && !(a || cs)) n := by
  cases a <;> cases cs <;> cases ao <;> simp [alignmentDecision]

/-- C6: the Result's metadata holds a title: the description of the pose
relation, followed by exactly one alignment-mode description among the
five possible ones (selected as the claim states), followed by the
aligned-poses suffix exactly when Umeyama alignment was requested with
`n_to_align ≠ -1`. -/
theorem ape_title_modes (app : Traj → AlignRecord → Traj) (tr te : Traj)
    (rel : PoseRelation) (a cs ao : Bool) (n : Int) (rn en : String) :
    (apeResult app tr te rel a cs n ao rn en).info.lookup "title" =
      some (apeBaseTitle rel ++ ("\n" ++ (titleModeDescr a cs ao ++
        titleSuffix a cs n))) ∧
    titleModeDescr a cs ao ∈
      ["(with SE(3) Umeyama alignment)", "(with Sim(3) Umeyama alignment)",
       "(scale corrected)", "(with origin alignment)", "(not aligned)"] := by
  constructor
  · have h : (apeResult app tr te rel a cs n ao rn en).info.lookup "title" =
        some (buildTitle (apeBaseTitle rel) a cs ao n) := by
      simp [apeResult, List.lookup]
    rw [h, buildTitle_eq]
  · cases a <;> cases cs <;> cases ao <;> simp [titleModeDescr]

/-- C4 failing input: a reference trajectory with timestamps 1, 2, 3. -/
def c4Ref : PoseTraj := ⟨[pAt 0, pAt 0, pAt 0], [1, 2, 3]⟩

/-- C4: with `t_end = 0.0` supplied (and no `t_start`), the guard
`if args.t_start or args.t_end` of `run` treats `0.0` as falsy and skips
the restriction, leaving the reference trajectory untouched — although
the claimed restriction to the interval `(-∞, 0]` would leave no poses
at all on this input. -/
theorem run_time_restriction_zero_end_skipped :
    runRestrictStep c4Ref none (some 0) = c4Ref ∧
      (reduceToTimeRange c4Ref none (some 0)).poses = [] := by decide

/-- C8 (amended): when the two attachment names differ, the Result of
`ape` contains the reference trajectory under `ref_name` and the
pipeline's estimate trajectory (the input estimate, aligned when an
alignment was applied) under `est_name`, for every pose relation and
alignment mode.  Invoking with the default names attaches them under
`"reference"` and `"estimate"`. -/
theorem ape_attaches_trajectories (app : Traj → AlignRecord → Traj)
    (tr te : Traj) (rel : PoseRelation) (a cs ao : Bool) (n : Int)
    (rn en : String) (h : rn ≠ en) :
    (apeResult app tr te rel a cs n ao rn en).trajectories.lookup rn =
      some tr ∧
    (apeResult app tr te rel a cs n ao rn en).trajectories.lookup en =
      some (apeAlignedEst app te a cs ao n) := by
  have hne : (rn == en) = false := beq_eq_false_iff_ne.mpr h
  have hne2 : (en == rn) = false := beq_eq_false_iff_ne.mpr (Ne.symm h)
  constructor <;>
    simp [apeResult, insertKV, List.lookup, hne, hne2]

/-- C8 witness: with the default names, the reference is attached under
`"reference"` and the estimate under `"estimate"`. -/
theorem ape_attaches_trajectories_witness :
    "reference" ≠ "estimate" ∧
    ((apeResult idApply scARef scAEst .trans_part false false (-1) false
        "reference" "estimate").trajectories.lookup "reference" =
      some scARef ∧
    (apeResult idApply scARef scAEst .trans_part false false (-1) false
        "reference" "estimate").trajectories.lookup "estimate" =
      some (apeAlignedEst idApply scAEst false false false (-1))) :=
  ⟨by decide, ape_attaches_trajectories idApply scARef scAEst .trans_part
    false false false (-1) "reference" "estimate" (by decide)⟩

/-- C8 counterexample input: an estimate different from the reference. -/
def cxEst : Traj := .path [pAt 1]

/-- C8 counterexample input: a reference trajectory. -/
def cxRef : Traj := .path [pAt 0]

/-- C8 counterexample: when `ref_name` and `est_name` are the same
string, the Result does not contain the reference trajectory under
`ref_name` — the single mapping entry holds the estimate. -/
theorem ape_attach_name_collision :
    (apeResult idApply cxRef cxEst .trans_part false false (-1) false
      "traj" "traj").trajectories.lookup "traj" ≠ some cxRef ∧
    (apeResult idApply cxRef cxEst .trans_part false false (-1) false
      "traj" "traj").trajectories.lookup "traj" = some cxEst := by
  constructor <;> decide

/-- C10: the Result of `ape` stores a value under the key
`alignment_transformation_sim3` exactly when one of the alignment modes
was applied, i.e. when `align`, `correct_scale` or `align_origin` is
set; with no alignment requested the key is absent. -/
theorem ape_alignment_array_iff (app : Traj → AlignRecord → Traj)
    (tr te : Traj) (rel : PoseRelation) (a cs ao : Bool) (n : Int)
    (rn en : String) :
    ((apeResult app tr te rel a cs n ao rn en).np_arrays.lookup
      "alignment_transformation_sim3").isSome = (a || cs || ao) := by
  rcases hres : apeAlignedEst app te a cs ao n with ps | t <;>
    cases a <;> cases cs <;> cases ao <;>
      simp [apeResult, alignmentDecision, hres, List.lookup, apeAlignedEst] <;>
      (rcases te with ps2 | t2 <;> simp <;>
        rintro a b (⟨rfl, -⟩ | ⟨rfl, -⟩ | ⟨rfl, -⟩ | ⟨rfl, -⟩) <;> simp)

lemma apeError_transPart_pAt (a b : ℚ)
    (h : (relTrans (pAt a) (pAt b)).normSq = 1/100) :
    apeError .trans_part (pAt a) (pAt b) = 1/10 := by
  have h1 : apeError .trans_part (pAt a) (pAt b) =
      Real.sqrt (((relTrans (pAt a) (pAt b)).normSq : ℚ) : ℝ) := rfl
  have h2 : (((1 : ℚ)/100 : ℚ) : ℝ) = ((1 : ℝ)/10)^2 := by
    push_cast
    norm_num
  rw [h1, h, h2, Real.sqrt_sq (by norm_num : (0:ℝ) ≤ 1/10)]

/-- C1: on scenario A — reference poses at x = 0, 1, 2 with identity
rotations and timestamps 0, 1, 2, estimate shifted by (0.1, 0, 0) —
`ape` with pose relation `trans_part` and no alignment succeeds and
returns a Result whose per-pose error array is [0.1, 0.1, 0.1] and
whose rmse statistic is 0.1. -/
theorem ape_scenarioA_errors_rmse :
    ape idApply scARef scAEst .trans_part false false (-1) false
        "reference" "estimate" =
      .ok (apeResult idApply scARef scAEst .trans_part false false (-1) false
        "reference" "estimate") ∧
    (apeResult idApply scARef scAEst .trans_part false false (-1) false
        "reference" "estimate").np_arrays.lookup "error_array" =
      some (.arr [1/10, 1/10, 1/10]) ∧
    (apeResult idApply scARef scAEst .trans_part false false (-1) false
        "reference" "estimate").stats.lookup "rmse" = some (1/10) := by
  have hns : ∀ a b : ℚ, (relTrans (pAt a) (pAt b)).normSq =
      (b - a) * (b - a) := by
    intro a b
    simp [relTrans, Mat3.transpose, Mat3.one, Mat3.mulVec, Vec3.dot,
      Vec3.normSq, pAt]
  have e0 : apeError .trans_part (pAt 0) (pAt (1/10)) = 1/10 :=
    apeError_transPart_pAt 0 (1/10) (by rw [hns]; norm_num)
  have e1 : apeError .trans_part (pAt 1) (pAt (11/10)) = 1/10 :=
    apeError_transPart_pAt 1 (11/10) (by rw [hns]; norm_num)
  have e2 : apeError .trans_part (pAt 2) (pAt (21/10)) = 1/10 :=
    apeError_transPart_pAt 2 (21/10) (by rw [hns]; norm_num)
  have herr : List.zipWith (apeError .trans_part) scARef.poses
      (apeAlignedEst idApply scAEst false false false (-1)).poses =
      [(1/10 : ℝ), 1/10, 1/10] := by
    show [apeError .trans_part (pAt 0) (pAt (1/10)),
          apeError .trans_part (pAt 1) (pAt (11/10)),
          apeError .trans_part (pAt 2) (pAt (21/10))] = _
    rw [e0, e1, e2]
  have hrmse : rmse [(1/10 : ℝ), 1/10, 1/10] = 1/10 := by
    have h3 : rmse [(1/10 : ℝ), 1/10, 1/10] = Real.sqrt (((1:ℝ)/10)^2) := by
      unfold rmse sse
      congr 1
      norm_num
    rw [h3, Real.sqrt_sq (by norm_num : (0:ℝ) ≤ 1/10)]
  refine ⟨rfl, ?_, ?_⟩
  · have h4 : (apeResult idApply scARef scAEst .trans_part false false (-1)
        false "reference" "estimate").np_arrays.lookup "error_array" =
        some (.arr (List.zipWith (apeError .trans_part) scARef.poses
          (apeAlignedEst idApply scAEst false false false (-1)).poses)) := by
      simp [apeResult, List.lookup]
    rw [h4, herr]
  · have h5 : (apeResult idApply scARef scAEst .trans_part false false (-1)
        false "reference" "estimate").stats.lookup "rmse" =
        some (rmse (List.zipWith (apeError .trans_part) scARef.poses
          (apeAlignedEst idApply scAEst false false false (-1)).poses)) := by
      simp [apeResult, statsOf, List.lookup]
    rw [h5, herr, hrmse]

lemma distances_length (ps : List Pose) : (distances ps).length = ps.length := by
  cases ps with
  | nil => rfl
  | cons p rest =>
      simp [distances, posDeltasSq, List.length_scanl]

/-- Bool-valued check that a named Result entry, when it is a per-pose
array, has the given length. -/
def npLenOk (n : Nat) (p : String × NpValue) : Bool :=
  match p.2 with
  | .arr a => a.length == n
  | .mat _ => true

/-- C7: every named numeric array stored in the Result of `ape` (the
per-pose error array and, when present, seconds_from_start, timestamps,
distances_from_start and distances) has length equal to the number of
compared pose pairs — the common length of the two trajectories. -/
theorem ape_array_lengths (app : Traj → AlignRecord → Traj) (tr te : Traj)
    (rel : PoseRelation) (a cs ao : Bool) (n : Int) (rn en : String)
    (h1 : (apeAlignedEst app te a cs ao n).poses.length = tr.poses.length)
    (h2 : (apeAlignedEst app te a cs ao n).wf = true) :
    ((apeResult app tr te rel a cs n ao rn en).np_arrays.all
      (npLenOk tr.poses.length)) = true := by
  rcases hres : apeAlignedEst app te a cs ao n with ps | t
  · rw [hres] at h1
    simp only [Traj.poses_path] at h1
    cases hdec : alignmentDecision a cs ao n <;>
      simp [apeResult, hdec, hres, npLenOk, List.all_append,
        List.length_zipWith, h1]
  · rw [hres] at h1 h2
    simp only [Traj.poses_timed, Traj.wf_timed, beq_iff_eq] at h1 h2
    cases hdec : alignmentDecision a cs ao n <;>
      simp [apeResult, hdec, hres, npLenOk, List.all_append,
        List.length_zipWith, distances_length, h1, h2]

/-- C7 witness at scenario A (lengths 3 = 3, estimate well-formed). -/
theorem ape_array_lengths_witness :
    ((apeAlignedEst idApply scAEst false false false (-1)).poses.length =
      scARef.poses.length) ∧
    ((apeAlignedEst idApply scAEst false false false (-1)).wf = true) ∧
    ((apeResult idApply scARef scAEst .trans_part false false (-1) false
      "reference" "estimate").np_arrays.all
        (npLenOk scARef.poses.length)) = true :=
  ⟨rfl, rfl, ape_array_lengths idApply scARef scAEst .trans_part
    false false false (-1) "reference" "estimate" rfl rfl⟩

/-- C9: the Result of `ape` stores the four auxiliary per-pose arrays
exactly when the estimate trajectory is timestamped:
`seconds_from_start` is the estimate's timestamps minus the first one,
`timestamps` is the estimate's timestamps, `distances_from_start` is
the reference's cumulative distances minus their first entry, and
`distances` is the cumulative distances of the (possibly aligned)
estimate; on an untimestamped estimate none of the four is present.
The alignment application is assumed to preserve timestamps. -/
theorem ape_aux_arrays_iff_timed (app : Traj → AlignRecord → Traj)
    (tr te : Traj) (rel : PoseRelation) (a cs ao : Bool) (n : Int)
    (rn en : String)
    (hp : ∀ u rec, (app u rec).isTimed = u.isTimed ∧
      (app u rec).stamps = u.stamps) :
    (apeResult app tr te rel a cs n ao rn en).np_arrays.lookup
        "seconds_from_start" =
      (if te.isTimed = true then
        some (.arr (te.stamps.map fun x => ((x - te.stamps.headI : ℚ) : ℝ)))
       else none) ∧
    (apeResult app tr te rel a cs n ao rn en).np_arrays.lookup "timestamps" =
      (if te.isTimed = true then
        some (.arr (te.stamps.map fun x => ((x : ℚ) : ℝ))) else none) ∧
    (apeResult app tr te rel a cs n ao rn en).np_arrays.lookup
        "distances_from_start" =
      (if te.isTimed = true then
        some (.arr ((distances tr.poses).map
          fun d => d - (distances tr.poses).headI)) else none) ∧
    (apeResult app tr te rel a cs n ao rn en).np_arrays.lookup "distances" =
      (if te.isTimed = true then
        some (.arr (distances
          (apeAlignedEst app te a cs ao n).poses)) else none) := by
  have hTimed : (apeAlignedEst app te a cs ao n).isTimed = te.isTimed := by
    unfold apeAlignedEst
    cases alignmentDecision a cs ao n with
    | none => rfl
    | some rec => exact (hp te rec).1
  have hStamps : (apeAlignedEst app te a cs ao n).stamps = te.stamps := by
    unfold apeAlignedEst
    cases alignmentDecision a cs ao n with
    | none => rfl
    | some rec => exact (hp te rec).2
  rcases hres : apeAlignedEst app te a cs ao n with ps | t
  · rw [hres] at hTimed hStamps
    simp only [Traj.isTimed_path] at hTimed
    cases hdec : alignmentDecision a cs ao n <;>
      simp [apeResult, hdec, hres, List.lookup, ← hTimed]
  · rw [hres] at hTimed hStamps
    simp only [Traj.isTimed_timed, Traj.stamps_timed] at hTimed hStamps
    cases hdec : alignmentDecision a cs ao n <;>
      simp [apeResult, hdec, hres, List.lookup, ← hTimed, ← hStamps]

/-- C9 witness at scenario A with the identity alignment application. -/
theorem ape_aux_arrays_iff_timed_witness :
    (apeResult idApply scARef scAEst .trans_part false false (-1) false
        "reference" "estimate").np_arrays.lookup "seconds_from_start" =
      (if scAEst.isTimed = true then
        some (.arr (scAEst.stamps.map
          fun x => ((x - scAEst.stamps.headI : ℚ) : ℝ))) else none) ∧
    (apeResult idApply scARef scAEst .trans_part false false (-1) false
        "reference" "estimate").np_arrays.lookup "timestamps" =
      (if scAEst.isTimed = true then
        some (.arr (scAEst.stamps.map fun x => ((x : ℚ) : ℝ))) else none) ∧
    (apeResult idApply scARef scAEst .trans_part false false (-1) false
        "reference" "estimate").np_arrays.lookup "distances_from_start" =
      (if scAEst.isTimed = true then
        some (.arr ((distances scARef.poses).map
          fun d => d - (distances scARef.poses).headI)) else none) ∧
    (apeResult idApply scARef scAEst .trans_part false false (-1) false
        "reference" "estimate").np_arrays.lookup "distances" =
      (if scAEst.isTimed = true then
        some (.arr (distances
          (apeAlignedEst idApply scAEst false false false (-1)).poses))
       else none) :=
  ape_aux_arrays_iff_timed idApply scARef scAEst .trans_part false false false
    (-1) "reference" "estimate" (fun _ _ => ⟨rfl, rfl⟩)

lemma better_cases (cur : Option (Nat × ℚ)) (i : Nat) (d : ℚ) (j : Nat)
    (dj : ℚ) (h : better cur i d = some (j, dj)) :
    j = i ∨ cur = some (j, dj) := by
  rcases cur with - | ⟨k, dk⟩
  · simp only [better] at h
    exact Or.inl (by injection h with h2; injection h2 with h3 _; exact h3.symm)
  · simp only [better] at h
    by_cases hle : d ≤ dk
    · rw [if_pos hle] at h
      exact Or.inl (by injection h with h2; injection h2 with h3 _; exact h3.symm)
    · rw [if_neg hle] at h
      exact Or.inr h

lemma bestMatch_mem (consumed : List Nat) (ta off : ℚ) :
    ∀ (l : List (Nat × ℚ)) (i : Nat) (d : ℚ),
      bestMatch consumed ta off l = some (i, d) →
      i ∈ l.map (·.1) ∧ i ∉ consumed := by
  intro l
  induction l with
  | nil => intro i d h; simp [bestMatch] at h
  | cons p rest ih =>
      rcases p with ⟨j, tb⟩
      intro i d h
      simp only [bestMatch] at h
      by_cases hj : j ∈ consumed
      · rw [if_pos hj] at h
        obtain ⟨h1, h2⟩ := ih i d h
        exact ⟨by simp [List.mem_map] at h1 ⊢; tauto, h2⟩
      · rw [if_neg hj] at h
        rcases better_cases _ _ _ _ _ h with rfl | hcur
        · exact ⟨by simp, hj⟩
        · obtain ⟨h1, h2⟩ := ih i d hcur
          exact ⟨by simp [List.mem_map] at h1 ⊢; tauto, h2⟩

lemma assocGo_spec (tb : List (Nat × ℚ)) (md off : ℚ) :
    ∀ (l : List (Nat × ℚ)) (consumed : List Nat),
      (assocGo tb md off l consumed).length ≤ l.length ∧
      ((assocGo tb md off l consumed).map (·.2)).Nodup ∧
      (∀ p ∈ assocGo tb md off l consumed,
        p.1 ∈ l.map (·.1) ∧ p.2 ∈ tb.map (·.1) ∧ p.2 ∉ consumed) := by
  intro l
  induction l with
  | nil => intro consumed; simp [assocGo]
  | cons q rest ih =>
      rcases q with ⟨ia, ta⟩
      intro consumed
      cases hbm : bestMatch consumed ta off tb with
      | none =>
          simp only [assocGo, hbm]
          obtain ⟨hl, hnd, hmem⟩ := ih consumed
          refine ⟨hl.trans (Nat.le_succ _), hnd, ?_⟩
          intro p hp
          obtain ⟨h1, h2, h3⟩ := hmem p hp
          exact ⟨by simp [List.mem_map] at h1 ⊢; tauto, h2, h3⟩
      | some r =>
          rcases r with ⟨ib, d⟩
          simp only [assocGo, hbm]
          obtain ⟨hbm1, hbm2⟩ := bestMatch_mem consumed ta off tb ib d hbm
          by_cases hd : d ≤ md
          · rw [if_pos hd]
            obtain ⟨hl, hnd, hmem⟩ := ih (ib :: consumed)
            refine ⟨Nat.succ_le_succ hl, ?_, ?_⟩
            · rw [List.map_cons, List.nodup_cons]
              refine ⟨?_, hnd⟩
              intro hcontra
              obtain ⟨p, hp, hpeq⟩ := List.mem_map.mp hcontra
              exact (hmem p hp).2.2 (by rw [hpeq]; exact List.mem_cons_self _ _)
            · intro p hp
              rcases List.mem_cons.mp hp with rfl | hp2
              · exact ⟨by simp, hbm1, hbm2⟩
              · obtain ⟨h1, h2, h3⟩ := hmem p hp2
                exact ⟨by simp [List.mem_map] at h1 ⊢; tauto, h2,
                  fun hc => h3 (List.mem_cons_of_mem _ hc)⟩
          · rw [if_neg hd]
            obtain ⟨hl, hnd, hmem⟩ := ih consumed
            refine ⟨hl.trans (Nat.le_succ _), hnd, ?_⟩
            intro p hp
            obtain ⟨h1, h2, h3⟩ := hmem p hp
            exact ⟨by simp [List.mem_map] at h1 ⊢; tauto, h2, h3⟩

lemma assocPairs_spec (ta tb : List ℚ) (md off : ℚ) :
    (assocPairs ta tb md off).length ≤ ta.length ∧
    ((assocPairs ta tb md off).map (·.2)).Nodup ∧
    ∀ p ∈ assocPairs ta tb md off, p.1 < ta.length ∧ p.2 < tb.length := by
  obtain ⟨hl, hnd, hmem⟩ := assocGo_spec tb.enum md off ta.enum []
  refine ⟨by simpa [List.enum_length] using hl, hnd, ?_⟩
  intro p hp
  obtain ⟨h1, h2, _⟩ := hmem p hp
  rw [List.enum_map_fst] at h1 h2
  exact ⟨List.mem_range.mp h1, List.mem_range.mp h2⟩

lemma nodup_lt_length_le (l : List Nat) (n : Nat) (hn : l.Nodup)
    (hb : ∀ x ∈ l, x < n) : l.length ≤ n := by
  classical
  calc l.length = l.toFinset.card := (List.toFinset_card_of_nodup hn).symm
    _ ≤ (Finset.range n).card := Finset.card_le_card fun x hx =>
        Finset.mem_range.mpr (hb x (List.mem_toFinset.mp hx))
    _ = n := Finset.card_range n

lemma filterMap_get_length {α : Type} (l : List α) (idx : List Nat)
    (h : ∀ i ∈ idx, i < l.length) :
    (idx.filterMap (l[·]?)).length = idx.length := by
  induction idx with
  | nil => rfl
  | cons i rest ih =>
      simp only [List.filterMap_cons]
      rw [List.getElem?_eq_getElem (h i (List.mem_cons_self _ _))]
      simp [ih (fun j hj => h j (List.mem_cons_of_mem _ hj))]

/-- Whether a fallible computation succeeded. -/
def isOkE {α : Type} : Except String α → Bool
  | .ok _ => true
  | .error _ => false

/-- The pose-list lengths of the two trajectories of a successful
association, `(0, 0)` for a failed one. -/
def okLens : Except String (PoseTraj × PoseTraj) → Nat × Nat
  | .ok p => (p.1.poses.length, p.2.poses.length)
  | .error _ => (0, 0)

/-- C5: for well-formed trajectories and `max_diff ≥ 0`, the
Synchronizer succeeds exactly when at least one timestamp pair matches
within the tolerance; on success both returned trajectories have length
equal to the number of matched pairs (hence equal to each other), and
that number is at most `min (len A) (len B)`.  A failure carries no
trajectories at all. -/
theorem associate_lengths_failure (A B : PoseTraj) (md off : ℚ)
    (hA : A.timestamps.length = A.poses.length)
    (hB : B.timestamps.length = B.poses.length)
    (hmd : 0 ≤ md) :
    isOkE (associate A B md off) =
      !(assocPairs A.timestamps B.timestamps md off).isEmpty ∧
    okLens (associate A B md off) =
      ((assocPairs A.timestamps B.timestamps md off).length,
       (assocPairs A.timestamps B.timestamps md off).length) ∧
    (assocPairs A.timestamps B.timestamps md off).length ≤
      min A.poses.length B.poses.length := by
  obtain ⟨hlen, hnd, hmem⟩ := assocPairs_spec A.timestamps B.timestamps md off
  have hlenA : (assocPairs A.timestamps B.timestamps md off).length ≤
      A.poses.length := by rw [← hA]; exact hlen
  have hlenB : (assocPairs A.timestamps B.timestamps md off).length ≤
      B.poses.length := by
    rw [← hB]
    have hstep : ((assocPairs A.timestamps B.timestamps md off).map
        (·.2)).length ≤ B.timestamps.length := by
      refine nodup_lt_length_le _ _ hnd ?_
      intro x hx
      obtain ⟨p, hp, rfl⟩ := List.mem_map.mp hx
      exact (hmem p hp).2
    simpa [List.length_map] using hstep
  cases hemp : (assocPairs A.timestamps B.timestamps md off).isEmpty
  case true =>
    have hnil : assocPairs A.timestamps B.timestamps md off = [] :=
      List.isEmpty_iff.mp hemp
    refine ⟨?_, ?_, le_min hlenA hlenB⟩ <;>
      simp [associate, isOkE, okLens, hnil]
  case false =>
    have hok : associate A B md off =
        .ok (selectIdx A ((assocPairs A.timestamps B.timestamps md off).map
              (·.1)),
            selectIdx B ((assocPairs A.timestamps B.timestamps md off).map
              (·.2))) := by
      simp [associate, hemp]
    refine ⟨by simp [hok, isOkE, hemp], ?_, le_min hlenA hlenB⟩
    rw [hok]
    simp only [okLens, selectIdx]
    have hlA : (((assocPairs A.timestamps B.timestamps md off).map
        (·.1)).filterMap (A.poses[·]?)).length =
        (assocPairs A.timestamps B.timestamps md off).length := by
      rw [filterMap_get_length]
      · simp [List.length_map]
      · intro i hi
        obtain ⟨p, hp, rfl⟩ := List.mem_map.mp hi
        exact hA ▸ (hmem p hp).1
    have hlB : (((assocPairs A.timestamps B.timestamps md off).map
        (·.2)).filterMap (B.poses[·]?)).length =
        (assocPairs A.timestamps B.timestamps md off).length := by
      rw [filterMap_get_length]
      · simp [List.length_map]
      · intro i hi
        obtain ⟨p, hp, rfl⟩ := List.mem_map.mp hi
        exact hB ▸ (hmem p hp).2
    rw [hlA, hlB]

/-- C5 witness: associating a one-pose trajectory with itself at
tolerance 0 succeeds with one matched pair. -/
theorem associate_lengths_failure_witness :
    ((⟨[pAt 0], [0]⟩ : PoseTraj).timestamps.length =
      (⟨[pAt 0], [0]⟩ : PoseTraj).poses.length) ∧
    ((0 : ℚ) ≤ 0) ∧
    (isOkE (associate ⟨[pAt 0], [0]⟩ ⟨[pAt 0], [0]⟩ 0 0) =
      !(assocPairs [0] [0] 0 0).isEmpty ∧
    okLens (associate ⟨[pAt 0], [0]⟩ ⟨[pAt 0], [0]⟩ 0 0) =
      ((assocPairs [0] [0] 0 0).length, (assocPairs [0] [0] 0 0).length) ∧
    (assocPairs [0] [0] 0 0).length ≤ min 1 1) :=
  ⟨rfl, le_refl 0,
    associate_lengths_failure ⟨[pAt 0], [0]⟩ ⟨[pAt 0], [0]⟩ 0 0 rfl rfl
      (le_refl 0)⟩

lemma lookup_mem_nat {i : Nat} {A : PoseTraj} :
    ∀ {l : List (Nat × PoseTraj)}, l.lookup i = some A → (i, A) ∈ l := by
  intro l
  induction l with
  | nil => intro h; simp [List.lookup] at h
  | cons p rest ih =>
      intro h
      rcases p with ⟨j, v⟩
      simp only [List.lookup] at h
      cases hbe : (i == j) with
      | true =>
          rw [hbe] at h
          obtain rfl : i = j := beq_iff_eq.mp hbe
          obtain rfl : v = A := by injection h
          exact List.mem_cons_self _ _
      | false =>
          rw [hbe] at h
          exact List.mem_cons_of_mem _ (ih h)

lemma Store.get_lt {s : Store} (hwf : s.WFS) {i : Nat} {A : PoseTraj}
    (h : s.get i = some A) : i < s.next :=
  hwf _ (lookup_mem_nat h)

/-- C3: the synchronization and alignment steps, run on stored
trajectory instances, leave the caller's instances untouched — after
both steps the caller's reference and estimate identifiers still hold
exactly the trajectories they held before — and the associated and
aligned trajectories are returned as new instances, with identifiers
distinct from the caller's. -/
theorem sync_align_no_mutation (s : Store) (ra rb : Nat) (A B : PoseTraj)
    (md off : ℚ) (rec : AlignRecord)
    (app : PoseTraj → AlignRecord → PoseTraj) (ia ib ie : Nat)
    (s1 s2 : Store) (hwf : s.WFS) (ha : s.get ra = some A)
    (hb : s.get rb = some B)
    (h1 : associateS s ra rb md off = .ok ((ia, ib), s1))
    (h2 : alignS s1 ib rec app = .ok (ie, s2)) :
    s2.get ra = some A ∧ s2.get rb = some B ∧
    ia ≠ ra ∧ ia ≠ rb ∧ ib ≠ ra ∧ ib ≠ rb ∧ ie ≠ ra ∧ ie ≠ rb := by
  have hra : ra < s.next := Store.get_lt hwf ha
  have hrb : rb < s.next := Store.get_lt hwf hb
  simp only [associateS, ha, hb] at h1
  rcases hassoc : associate A B md off with e | ⟨A2, B2⟩
  · rw [hassoc] at h1
    cases h1
  · rw [hassoc] at h1
    simp only [Store.alloc, Except.ok.injEq, Prod.mk.injEq] at h1
    obtain ⟨⟨hia, hib⟩, hs1⟩ := h1
    subst hia
    subst hib
    subst hs1
    simp only [alignS, Store.get, List.lookup, beq_self_eq_true,
      Store.alloc, Except.ok.injEq, Prod.mk.injEq] at h2
    obtain ⟨hie, hs2⟩ := h2
    subst hie
    subst hs2
    have hb1 : (ra == s.next + 1) = false :=
      beq_eq_false_iff_ne.mpr (by omega)
    have hb2 : (ra == s.next) = false := beq_eq_false_iff_ne.mpr (by omega)
    have hb3 : (ra == s.next + 2) = false :=
      beq_eq_false_iff_ne.mpr (by omega)
    have hb4 : (rb == s.next + 1) = false :=
      beq_eq_false_iff_ne.mpr (by omega)
    have hb5 : (rb == s.next) = false := beq_eq_false_iff_ne.mpr (by omega)
    have hb6 : (rb == s.next + 2) = false :=
      beq_eq_false_iff_ne.mpr (by omega)
    refine ⟨?_, ?_, by omega, by omega, by omega, by omega, by omega, by omega⟩
    · simpa [Store.get, List.lookup, hb1, hb2, hb3] using ha
    · simpa [Store.get, List.lookup, hb4, hb5, hb6] using hb

/-- C3 witness store: two stored one-pose trajectories. -/
def wStore : Store := ⟨[(0, ⟨[pAt 0], [0]⟩), (1, ⟨[pAt 0], [0]⟩)], 2⟩

/-- C3 witness: a concrete store on which association and alignment
leave the caller's two instances unchanged and allocate fresh ones. -/
theorem sync_align_no_mutation_witness :
    wStore.get 0 = some ⟨[pAt 0], [0]⟩ ∧
    wStore.get 1 = some ⟨[pAt 0], [0]⟩ ∧
    (Store.get ⟨[(4, ⟨[pAt 0], [0]⟩), (3, ⟨[pAt 0], [0]⟩),
        (2, ⟨[pAt 0], [0]⟩), (0, ⟨[pAt 0], [0]⟩), (1, ⟨[pAt 0], [0]⟩)], 5⟩ 0 =
      some ⟨[pAt 0], [0]⟩ ∧
    Store.get ⟨[(4, ⟨[pAt 0], [0]⟩), (3, ⟨[pAt 0], [0]⟩),
        (2, ⟨[pAt 0], [0]⟩), (0, ⟨[pAt 0], [0]⟩), (1, ⟨[pAt 0], [0]⟩)], 5⟩ 1 =
      some ⟨[pAt 0], [0]⟩ ∧
    (2 : Nat) ≠ 0 ∧ (2 : Nat) ≠ 1 ∧ (3 : Nat) ≠ 0 ∧ (3 : Nat) ≠ 1 ∧
    (4 : Nat) ≠ 0 ∧ (4 : Nat) ≠ 1) :=
  ⟨rfl, rfl,
    sync_align_no_mutation wStore 0 1 ⟨[pAt 0], [0]⟩ ⟨[pAt 0], [0]⟩ 0 0
      .origin (fun t _ => t) 2 3 4
      ⟨[(3, ⟨[pAt 0], [0]⟩), (2, ⟨[pAt 0], [0]⟩), (0, ⟨[pAt 0], [0]⟩),
        (1, ⟨[pAt 0], [0]⟩)], 4⟩
      ⟨[(4, ⟨[pAt 0], [0]⟩), (3, ⟨[pAt 0], [0]⟩), (2, ⟨[pAt 0], [0]⟩),
        (0, ⟨[pAt 0], [0]⟩), (1, ⟨[pAt 0], [0]⟩)], 5⟩
      (by decide) rfl rfl
      (by
        have h10 : ((1 : Nat) == 0) = false := rfl
        norm_num [associateS, wStore, Store.get, Store.alloc, List.lookup,
          associate, assocPairs, assocGo, bestMatch, better, selectIdx,
          List.enum, List.enumFrom, List.filterMap_cons, h10])
      (by
        have h34 : ((3 : Nat) == 4) = false := rfl
        norm_num [alignS, Store.get, Store.alloc, List.lookup, h34])⟩

end Evo
